import Mathlib

/-!
Verification of the AskMate classroom Q&A server.

The definitions below are a shallow embedding of the server-side logic:
the vote handlers of the question and answer routes, the answer-accept
handler, the answer-delete handler, the class model pre-save hooks
(class-code generation and creator membership), the class join and
member-removal handlers, and the membership/teacher authorization
predicates of the auth middleware.  MongoDB ObjectIds are modelled as
natural numbers (the JS code only ever compares them for equality via
toString), document arrays as lists, and the store as a list of
documents.
-/

namespace AskMate

/-- ObjectId, modelled as a natural number; the server only compares ids
for (string) equality. -/
abbrev UserId := Nat

/-! ## Vote ledger (questions.js and answers.js vote handlers) -/

/-- Vote request body type: `upvote`, `downvote` or `remove`. -/
inductive VoteType where
  | upvote
  | downvote
  | remove
deriving DecidableEq

/-- The two voter-id arrays carried by a question or an answer document. -/
structure VoteState where
  upvotes : List UserId
  downvotes : List UserId
deriving DecidableEq

/-- The vote handler body shared by the question and answer routes:
first both arrays are filtered to drop the caller id, then, unless the
type is `remove`, the caller id is pushed onto the chosen array. -/
def applyVote (s : VoteState) (userId : UserId) (type : VoteType) : VoteState :=
  let up := s.upvotes.filter (fun id => decide (id ≠ userId))
  let down := s.downvotes.filter (fun id => decide (id ≠ userId))
  match type with
  | VoteType.upvote => { upvotes := up ++ [userId], downvotes := down }
  | VoteType.downvote => { upvotes := up, downvotes := down ++ [userId] }
  | VoteType.remove => { upvotes := up, downvotes := down }

/-- A sequence of vote calls by one user, applied left to right. -/
def runVotes (u : UserId) (s : VoteState) (ts : List VoteType) : VoteState :=
  ts.foldl (fun st t => applyVote st u t) s

theorem not_mem_filter_ne (u : UserId) (l : List UserId) :
    u ∉ l.filter (fun id => decide (id ≠ u)) := by
  intro h
  have := List.of_mem_filter h
  simp at this

theorem applyVote_exclusive_single (s : VoteState) (u : UserId) (t : VoteType) :
    ¬(u ∈ (applyVote s u t).upvotes ∧ u ∈ (applyVote s u t).downvotes) := by
  rintro ⟨hup, hdown⟩
  cases t <;> simp only [applyVote] at hup hdown
  · exact not_mem_filter_ne u s.downvotes hdown
  · exact not_mem_filter_ne u s.upvotes hup
  · exact not_mem_filter_ne u s.upvotes hup

theorem runVotes_cons (u : UserId) (s : VoteState) (t : VoteType) (ts : List VoteType) :
    runVotes u s (t :: ts) = runVotes u (applyVote s u t) ts := rfl

theorem filter_ne_append_self (u : UserId) (l : List UserId) :
    (l ++ [u]).filter (fun id => decide (id ≠ u)) = l.filter (fun id => decide (id ≠ u)) := by
  simp [List.filter_append]

theorem filter_ne_idem (u : UserId) (l : List UserId) :
    (l.filter (fun id => decide (id ≠ u))).filter (fun id => decide (id ≠ u)) =
      l.filter (fun id => decide (id ≠ u)) := by
  rw [List.filter_filter]
  apply List.filter_congr
  intro a _
  simp

/-- C3: after the vote operation runs for a user — and hence after any
nonempty sequence of vote calls by that user, starting from any vote-set
state — that user appears in at most one of the upvote and downvote
arrays. -/
theorem vote_exclusivity (s : VoteState) (u : UserId) (ts : List VoteType)
    (h : ts ≠ []) :
    ¬(u ∈ (runVotes u s ts).upvotes ∧ u ∈ (runVotes u s ts).downvotes) := by
  induction ts generalizing s with
  | nil => exact absurd rfl h
  | cons t rest ih =>
    cases rest with
    | nil => exact applyVote_exclusive_single s u t
    | cons t2 rest2 =>
      rw [runVotes_cons]
      exact ih (applyVote s u t) (by simp)

/-- Witness for C3 at a concrete input: one upvote by user 1 on an empty
vote state leaves user 1 in at most one of the two arrays. -/
theorem vote_exclusivity_witness :
    ¬(1 ∈ (runVotes 1 ⟨[], []⟩ [VoteType.upvote]).upvotes ∧
      1 ∈ (runVotes 1 ⟨[], []⟩ [VoteType.upvote]).downvotes) :=
  vote_exclusivity ⟨[], []⟩ 1 [VoteType.upvote] (by simp)

/-- C4: the vote operation is idempotent — applying the same (user, kind)
vote twice in succession yields the same upvote and downvote arrays as
applying it once. -/
theorem vote_idempotent (s : VoteState) (u : UserId) (t : VoteType) :
    applyVote (applyVote s u t) u t = applyVote s u t := by
  cases t <;>
    simp [applyVote, filter_ne_append_self, filter_ne_idem]

/-! ## Class documents and membership (Class model and auth middleware) -/

/-- Per-class member role, the `role` enum of the members subdocument. -/
inductive Role where
  | student
  | teacher
deriving DecidableEq

/-- One entry of the class `members` array (the `joinedAt` timestamp is
irrelevant to every checked property and is omitted). -/
structure Member where
  user : UserId
  role : Role
deriving DecidableEq

/-- A Class document: its join code (a JS string, modelled as a list of
characters), creator, members array and active flag. -/
structure ClassDoc where
  classCode : List Char
  createdBy : UserId
  members : List Member
  isActive : Bool
deriving DecidableEq

/-- The membership test of `requireClassMember` (and of the inline copies
in the question/answer routes): some member user id equals the caller
id. -/
def isMember (c : ClassDoc) (u : UserId) : Bool :=
  c.members.any (fun m => decide (m.user = u))

/-- The teacher test of `requireClassTeacher`: some member user id
equals the caller id and that member per-class role is `teacher`. -/
def isTeacherOf (c : ClassDoc) (u : UserId) : Bool :=
  c.members.any (fun m => decide (m.user = u) && decide (m.role = Role.teacher))

/-- C6: `isMember` returns true iff the user id occurs in the class
member list, and `isTeacherOf` returns true iff it occurs there with
per-class role `teacher`. -/
theorem membership_predicates_correct (c : ClassDoc) (u : UserId) :
    (isMember c u = true ↔ ∃ m ∈ c.members, m.user = u) ∧
    (isTeacherOf c u = true ↔ ∃ m ∈ c.members, m.user = u ∧ m.role = Role.teacher) := by
  constructor
  · simp [isMember, List.any_eq_true]
  · simp [isTeacherOf, List.any_eq_true]

/-- Class creation: the document starts with an empty members array and
the second pre-save hook pushes the creator with role `teacher`. -/
def createClass (creator : UserId) (code : List Char) : ClassDoc :=
  { classCode := code
    createdBy := creator
    members := [{ user := creator, role := Role.teacher }]
    isActive := true }

/-- The POST /join handler after the class has been found by code:
reject an inactive class, reject a duplicate membership, otherwise push
the caller as a `student` member. -/
def joinClass (c : ClassDoc) (u : UserId) : Except String ClassDoc :=
  if c.isActive = false then
    Except.error "This class is no longer active"
  else if isMember c u then
    Except.error "You are already a member of this class"
  else
    Except.ok { c with members := c.members ++ [{ user := u, role := Role.student }] }

/-- The resulting class state of a join request: the stored document is
only mutated on the success path. -/
def joinResult (c : ClassDoc) (u : UserId) : ClassDoc :=
  match joinClass c u with
  | Except.ok next => next
  | Except.error _ => c

/-- The DELETE /:id/members/:userId handler: removing the creator is
refused; otherwise every member entry with the given user id is filtered
out of the members array. -/
def removeMember (c : ClassDoc) (uid : UserId) : ClassDoc :=
  if c.createdBy = uid then c
  else { c with members := c.members.filter (fun m => decide (m.user ≠ uid)) }

/-- Class states reachable through the member-list operations of the
routes: creation, join, and member removal. -/
inductive ClassEvolution : ClassDoc → Prop where
  | created (creator : UserId) (code : List Char) :
      ClassEvolution (createClass creator code)
  | joined (c : ClassDoc) (u : UserId) :
      ClassEvolution c → ClassEvolution (joinResult c u)
  | removed (c : ClassDoc) (uid : UserId) :
      ClassEvolution c → ClassEvolution (removeMember c uid)

/-- C7: in every reachable class state the creator is present in the
member list with per-class role `teacher`: creation inserts the creator
as a teacher member, join only appends, and member removal refuses to
remove the creator. -/
theorem creator_always_teacher (c : ClassDoc) (h : ClassEvolution c) :
    ∃ m ∈ c.members, m.user = c.createdBy ∧ m.role = Role.teacher := by
  induction h with
  | created creator code =>
    exact ⟨{ user := creator, role := Role.teacher }, by simp [createClass]⟩
  | joined c u _ ih =>
    obtain ⟨m, hm, hu, hr⟩ := ih
    unfold joinResult joinClass
    split
    · next nxt heq =>
      split at heq
      · exact absurd heq (by simp)
      · split at heq
        · exact absurd heq (by simp)
        · cases heq
          exact ⟨m, List.mem_append_left _ hm, hu, hr⟩
    · exact ⟨m, hm, hu, hr⟩
  | removed c uid _ ih =>
    obtain ⟨m, hm, hu, hr⟩ := ih
    unfold removeMember
    split
    · exact ⟨m, hm, hu, hr⟩
    · next hne =>
      refine ⟨m, ?_, hu, hr⟩
      simp only [List.mem_filter]
      refine ⟨hm, ?_⟩
      simp only [decide_eq_true_eq]
      rw [hu]
      exact hne

/-- Witness for C7 at a concrete input: the freshly created class of
user 0 contains user 0 as a teacher member. -/
theorem creator_always_teacher_witness :
    ∃ m ∈ (createClass 0 ['A', 'B', 'C', '1', '2', '3']).members,
      m.user = (createClass 0 ['A', 'B', 'C', '1', '2', '3']).createdBy ∧
      m.role = Role.teacher :=
  creator_always_teacher _ (ClassEvolution.created 0 ['A', 'B', 'C', '1', '2', '3'])

/-- C8: joining an active class as a non-member succeeds and grows the
member array by exactly one entry, and a second join by the same user is
rejected as duplicate membership, so the stored member list stays
unchanged. -/
theorem join_then_rejoin (c : ClassDoc) (u : UserId)
    (hact : c.isActive = true) (hnm : isMember c u = false) :
    ∃ next, joinClass c u = Except.ok next ∧
      next.members.length = c.members.length + 1 ∧
      isMember next u = true ∧
      joinClass next u = Except.error "You are already a member of this class" ∧
      joinResult next u = next := by
  refine ⟨{ c with members := c.members ++ [{ user := u, role := Role.student }] }, ?_, ?_, ?_, ?_, ?_⟩
  · simp [joinClass, hact, hnm]
  · simp
  · simp [isMember, List.any_append]
  · simp [joinClass, hact, isMember, List.any_append]
  · simp [joinResult, joinClass, hact, isMember, List.any_append]

/-- Witness for C8 at a concrete input: user 1 joins the class created
by user 0 and a repeated join is rejected with the member list kept. -/
theorem join_then_rejoin_witness :
    ∃ next, joinClass (createClass 0 ['A', 'B', 'C', '1', '2', '3']) 1 = Except.ok next ∧
      next.members.length = (createClass 0 ['A', 'B', 'C', '1', '2', '3']).members.length + 1 ∧
      isMember next 1 = true ∧
      joinClass next 1 = Except.error "You are already a member of this class" ∧
      joinResult next 1 = next :=
  join_then_rejoin (createClass 0 ['A', 'B', 'C', '1', '2', '3']) 1 (by decide) (by decide)

/-! ## Class-code generation (Class model pre-save hooks)

Both copies of the Class model carry the same inner `generateClassCode`
(six uniform draws from a 36-character alphabet); they differ only in
the surrounding retry loop.  `Math.floor(Math.random() * chars.length)`
is modelled as an oracle `rand : Nat → Fin 36` giving the draw for each
successive call, consumed six draws per attempt. -/

/-- The alphabet string `chars` of `generateClassCode`. -/
def codeChars : List Char := "ABCDEFGHIJKLMNOPQRSTUVWXYZ0123456789".toList

theorem codeChars_length : codeChars.length = 36 := rfl

/-- The `chars.charAt` access at an in-range index. -/
def charAt (k : Fin 36) : Char :=
  codeChars.get ⟨k.val, lt_of_lt_of_eq k.isLt codeChars_length.symm⟩

/-- The inner `generateClassCode` closure: concatenate six characters of
the alphabet chosen by six successive random draws. -/
def generateClassCode (rand : Nat → Fin 36) (off : Nat) : List Char :=
  (List.range 6).map (fun i => charAt (rand (off + i)))

/-- The `Class.findOne({ classCode })` collision query over the store. -/
def findOneByCode (store : List ClassDoc) (code : List Char) : Option ClassDoc :=
  store.find? (fun c => decide (c.classCode = code))

/-- The retry loop of the pre-save hook, one constructor step per
iteration of the JS `while`.  The part_003 copy runs it with the
constant budget `maxAttempts = 10` and turns the `none` outcome into the
explicit allocation error; the part_004 copy has no attempt counter, so
for it the first argument is only fuel and `none` means the loop is
still running after that many iterations. -/
def allocFuel (store : List ClassDoc) (rand : Nat → Fin 36) : Nat → Nat → Option (List Char)
  | _, 0 => none
  | off, k + 1 =>
    let code := generateClassCode rand off
    match findOneByCode store code with
    | none => some code
    | some _ => allocFuel store rand (off + 6) k

/-- The part_003 pre-save hook: at most `maxAttempts = 10` iterations,
a fresh code on success and (`none`, i.e. the allocation error
`Failed to generate unique class code after multiple attempts`) on
budget exhaustion. -/
def generateUniqueClassCode (store : List ClassDoc) (rand : Nat → Fin 36) :
    Option (List Char) :=
  allocFuel store rand 0 10

/-- Pairwise distinctness of the codes held by the persisted classes. -/
def codesDistinct (store : List ClassDoc) : Prop :=
  store.Pairwise (fun a b => a.classCode ≠ b.classCode)

theorem allocFuel_some (store : List ClassDoc) (rand : Nat → Fin 36) :
    ∀ fuel off code, allocFuel store rand off fuel = some code →
      (∃ o, code = generateClassCode rand o) ∧ findOneByCode store code = none := by
  intro fuel
  induction fuel with
  | zero => intro off code h; exact absurd h (by simp [allocFuel])
  | succ k ih =>
    intro off code h
    rw [allocFuel] at h
    revert h
    split
    · next hfind =>
      intro h
      cases h
      exact ⟨⟨off, rfl⟩, hfind⟩
    · exact ih (off + 6) code

theorem generateClassCode_wellformed (rand : Nat → Fin 36) (off : Nat) :
    (generateClassCode rand off).length = 6 ∧
      ∀ ch ∈ generateClassCode rand off, ch ∈ codeChars := by
  constructor
  · simp [generateClassCode]
  · intro ch hch
    simp only [generateClassCode, List.mem_map] at hch
    obtain ⟨i, _, hi⟩ := hch
    rw [← hi, charAt]
    exact List.get_mem _ _ _

/-- C2: a code allocated by the generator has length exactly 6, every
character drawn from the uppercase-alphanumeric alphabet, no persisted
class already holds it, and persisting a new class under it keeps the
stored codes pairwise distinct. -/
theorem allocated_code_wellformed (store : List ClassDoc) (rand : Nat → Fin 36)
    (code : List Char) (fresh : ClassDoc)
    (halloc : generateUniqueClassCode store rand = some code)
    (hcode : fresh.classCode = code)
    (hdist : codesDistinct store) :
    code.length = 6 ∧
    (∀ ch ∈ code, ch ∈ codeChars) ∧
    (∀ cl ∈ store, cl.classCode ≠ code) ∧
    codesDistinct (store ++ [fresh]) := by
  obtain ⟨⟨o, ho⟩, hfind⟩ := allocFuel_some store rand 10 0 code halloc
  have hfreshness : ∀ cl ∈ store, cl.classCode ≠ code := by
    intro cl hcl
    have := List.find?_eq_none.mp hfind cl hcl
    simpa using this
  refine ⟨?_, ?_, hfreshness, ?_⟩
  · rw [ho]; exact (generateClassCode_wellformed rand o).1
  · rw [ho]; exact fun ch hch => (generateClassCode_wellformed rand o).2 ch hch
  · rw [codesDistinct, List.pairwise_append]
    refine ⟨hdist, List.pairwise_singleton _ _, ?_⟩
    intro a ha b hb
    simp only [List.mem_singleton] at hb
    rw [hb, hcode]
    exact hfreshness a ha

/-- Witness for C2 at a concrete input: against an empty store, the
oracle that always draws index 0 allocates the code AAAAAA. -/
theorem allocated_code_wellformed_witness :
    (['A', 'A', 'A', 'A', 'A', 'A'] : List Char).length = 6 ∧
    (∀ ch ∈ (['A', 'A', 'A', 'A', 'A', 'A'] : List Char), ch ∈ codeChars) ∧
    (∀ cl ∈ ([] : List ClassDoc), cl.classCode ≠ ['A', 'A', 'A', 'A', 'A', 'A']) ∧
    codesDistinct ([] ++ [createClass 0 ['A', 'A', 'A', 'A', 'A', 'A']]) :=
  allocated_code_wellformed [] (fun _ => ⟨0, by decide⟩)
    ['A', 'A', 'A', 'A', 'A', 'A'] (createClass 0 ['A', 'A', 'A', 'A', 'A', 'A'])
    (by decide) rfl (List.Pairwise.nil)

/-- A random oracle whose every draw is index 0, so every generated
candidate is the code AAAAAA. -/
def constZeroRand : Nat → Fin 36 := fun _ => ⟨0, by decide⟩

/-- A store in which the only generated candidate AAAAAA already
belongs to a persisted class, so every attempt collides. -/
def collidingStore : List ClassDoc :=
  [createClass 0 ['A', 'A', 'A', 'A', 'A', 'A']]

/-- C1 (violated by the part_004 copy): when every sampled candidate
collides, the retry loop never yields a code, for any number of
iterations — so the part_004 hook, whose `while (!isUnique)` has no
attempt counter, loops forever instead of raising an allocation error,
while the part_003 copy stops after its budget of 10 attempts with the
explicit error (the `none` of `generateUniqueClassCode`). -/
theorem colliding_alloc_never_succeeds :
    (∀ fuel off, allocFuel collidingStore constZeroRand off fuel = none) ∧
    generateUniqueClassCode collidingStore constZeroRand = none := by
  have hgen : ∀ off, generateClassCode constZeroRand off =
      ['A', 'A', 'A', 'A', 'A', 'A'] := fun _ => rfl
  have hfind : findOneByCode collidingStore ['A', 'A', 'A', 'A', 'A', 'A'] =
      some (createClass 0 ['A', 'A', 'A', 'A', 'A', 'A']) := rfl
  have hmain : ∀ fuel off, allocFuel collidingStore constZeroRand off fuel = none := by
    intro fuel
    induction fuel with
    | zero => intro off; rfl
    | succ k ih =>
      intro off
      rw [allocFuel]
      simp only [hgen, hfind]
      exact ih (off + 6)
  exact ⟨hmain, hmain 10 0⟩

/-! ## Answers: acceptance and deletion (answers.js handlers) -/

/-- An Answer document, restricted to the fields the accept and delete
handlers read or write. -/
structure Answer where
  id : Nat
  questionId : Nat
  isAccepted : Bool
  isActive : Bool
deriving DecidableEq

/-- A Question document, restricted to the fields the accept and delete
handlers read or write: its answer-id array and resolved flag. -/
structure Question where
  id : Nat
  answers : List Nat
  isResolved : Bool
deriving DecidableEq

/-- The POST /:id/accept handler after its permission checks, acting on
the answer store and the parent question: `updateMany` clears the
accepted flag of every answer of the question, then the fetched target
document is saved back with its accepted flag set, then the question is
saved with `isResolved = true`. -/
def acceptAnswer (store : List Answer) (q : Question) (target : Answer) :
    List Answer × Question :=
  let cleared := store.map (fun a =>
    if a.questionId = target.questionId then { a with isAccepted := false } else a)
  let saved := cleared.map (fun a =>
    if a.id = target.id then { target with isAccepted := true } else a)
  (saved, { q with isResolved := true })

/-- C5: after a successful accept of answer `target` on question `q`,
the stored copy of `target` is accepted, every other answer of `q` is
not accepted, `q` is resolved, and hence every accepted answer of `q`
in the store is the target. -/
theorem accept_answer_spec (store : List Answer) (q : Question) (target : Answer)
    (hq : target.questionId = q.id) :
    (acceptAnswer store q target).2.isResolved = true ∧
    (∀ a ∈ (acceptAnswer store q target).1, a.id = target.id → a.isAccepted = true) ∧
    (∀ a ∈ (acceptAnswer store q target).1,
      a.questionId = q.id → a.id ≠ target.id → a.isAccepted = false) ∧
    (∀ a ∈ (acceptAnswer store q target).1,
      a.questionId = q.id → a.isAccepted = true → a.id = target.id) := by
  have hother : ∀ a ∈ (acceptAnswer store q target).1,
      a.questionId = q.id → a.id ≠ target.id → a.isAccepted = false := by
    intro a ha hqid hid
    simp only [acceptAnswer, List.mem_map] at ha
    obtain ⟨b, ⟨c, _, hc⟩, hb⟩ := ha
    by_cases h : b.id = target.id
    · exfalso
      rw [← hb, if_pos h] at hid
      exact hid rfl
    · rw [← hb, if_neg h] at hqid ⊢
      by_cases h2 : c.questionId = target.questionId
      · rw [← hc, if_pos h2]
      · rw [← hc, if_neg h2] at hqid ⊢
        exact absurd (hqid.trans hq.symm) h2
  refine ⟨rfl, ?_, hother, ?_⟩
  · intro a ha hid
    simp only [acceptAnswer, List.mem_map] at ha
    obtain ⟨b, _, hb⟩ := ha
    by_cases h : b.id = target.id
    · rw [← hb, if_pos h]
    · rw [← hb, if_neg h] at hid ⊢
      exact absurd hid h
  · intro a ha hqid hacc
    by_contra hne
    have hfalse := hother a ha hqid hne
    rw [hacc] at hfalse
    exact Bool.noConfusion hfalse

/-- A first concrete answer for the witnesses below. -/
def demoAnswerA : Answer := { id := 7, questionId := 3, isAccepted := false, isActive := true }

/-- A second concrete answer for the witnesses below. -/
def demoAnswerB : Answer := { id := 8, questionId := 3, isAccepted := true, isActive := true }

/-- A concrete parent question for the witnesses below. -/
def demoQuestion : Question := { id := 3, answers := [7, 8], isResolved := false }

/-- Witness for C5 at a concrete input: accepting answer 7 of question 3
on a two-answer store. -/
theorem accept_answer_spec_witness :
    (acceptAnswer [demoAnswerA, demoAnswerB] demoQuestion demoAnswerA).2.isResolved = true ∧
    (∀ a ∈ (acceptAnswer [demoAnswerA, demoAnswerB] demoQuestion demoAnswerA).1,
      a.id = demoAnswerA.id → a.isAccepted = true) ∧
    (∀ a ∈ (acceptAnswer [demoAnswerA, demoAnswerB] demoQuestion demoAnswerA).1,
      a.questionId = demoQuestion.id → a.id ≠ demoAnswerA.id → a.isAccepted = false) ∧
    (∀ a ∈ (acceptAnswer [demoAnswerA, demoAnswerB] demoQuestion demoAnswerA).1,
      a.questionId = demoQuestion.id → a.isAccepted = true → a.id = demoAnswerA.id) :=
  accept_answer_spec [demoAnswerA, demoAnswerB] demoQuestion demoAnswerA (by decide)

/-- The DELETE /:id handler of the answer routes after its permission
checks: the answer is soft-deleted (`isActive = false`) and its id is
pulled from the parent question answers array.  No other field of
either document is written. -/
def deleteAnswer (q : Question) (a : Answer) : Question × Answer :=
  ({ q with answers := q.answers.filter (fun x => decide (x ≠ a.id)) },
   { a with isAccepted := a.isAccepted, isActive := false })

/-- C9: deleting an answer never changes the parent question resolved
flag — in particular a resolved question whose accepted answer is
deleted stays resolved — while the deleted answer keeps its accepted
flag, is marked inactive, and no longer appears in the question
answers array. -/
theorem delete_answer_frame (q : Question) (a : Answer) :
    (deleteAnswer q a).1.isResolved = q.isResolved ∧
    (deleteAnswer q a).1.id = q.id ∧
    a.id ∉ (deleteAnswer q a).1.answers ∧
    (deleteAnswer q a).2.isAccepted = a.isAccepted ∧
    (deleteAnswer q a).2.isActive = false := by
  refine ⟨rfl, rfl, ?_, rfl, rfl⟩
  intro hmem
  simp only [deleteAnswer, List.mem_filter, decide_eq_true_eq] at hmem
  exact hmem.2 rfl

/-! ## Join lookup by class code (classes.js POST /join) -/

/-- JavaScript `toUpperCase` on one character of the basic latin range,
which is `Char.toUpper` of the standard library. -/
def upperCode (code : List Char) : List Char :=
  code.map Char.toUpper

theorem toNat_ofNat_of_valid {n : Nat} (h : n.isValidChar) :
    (Char.ofNat n).toNat = n := by
  rw [Char.ofNat, dif_pos h]
  rfl

theorem toUpper_idempotent (c : Char) : c.toUpper.toUpper = c.toUpper := by
  simp only [Char.toUpper]
  by_cases h : c.toNat ≥ 97 ∧ c.toNat ≤ 122
  · rw [if_pos h]
    have hv : Nat.isValidChar (c.toNat - 32) := Or.inl (by omega)
    rw [if_neg]
    rw [toNat_ofNat_of_valid hv]
    omega
  · rw [if_neg h, if_neg h]

/-- The POST /join class lookup: the submitted code is uppercased and
then matched against the stored `classCode` field. -/
def joinLookup (store : List ClassDoc) (code : List Char) : Option ClassDoc :=
  findOneByCode store (upperCode code)

/-- C10: the join lookup is case-insensitive — it resolves the same
class for a submitted code as for the uppercase of that code, because
the submitted code is uppercased before the store query. -/
theorem join_lookup_case_insensitive (store : List ClassDoc) (code : List Char) :
    joinLookup store code = joinLookup store (upperCode code) := by
  unfold joinLookup
  congr 1
  unfold upperCode
  rw [List.map_map]
  exact List.map_congr_left (fun c _ => (toUpper_idempotent c).symm)

